import Mathlib

/-!
Shallow embedding of the control/selection core of mengsuenyan/shadowsocks-rust:

* crates/shadowsocks-service/src/local/loadbalancing/server_stat.rs
  (the per-endpoint rolling health statistics engine — spec name HealthStat);
* crates/shadowsocks-service/src/local/net/auto_proxy_stream.rs
  (the bypass-or-proxy connection establisher — spec name ConnectionEstablisher);
* crates/shadowsocks-service/src/manager/server.rs
  (the manager of running server instances — spec name FleetManager).

Rust `f64` values are modelled as real numbers, `u64`/`u16`/`usize` as `Nat`.
The cast `as u64` of a nonnegative finite float truncates toward zero, and a
negative float saturates to 0; both are captured by `Int.toNat ∘ Int.floor`.
`VecDeque` is a `List` whose head is the front (the oldest element):
`push_back` appends at the right, `pop_front` is `List.tail`.
Rust `Vec::sort` is modelled by `List.insertionSort`, which likewise produces
the ascending-sorted permutation of its input.
-/

/-- Probe interval in seconds (`DEFAULT_CHECK_INTERVAL_SEC`). -/
def DEFAULT_CHECK_INTERVAL_SEC : Nat := 6

/-- Probe timeout in seconds (`DEFAULT_CHECK_TIMEOUT_SEC`). -/
def DEFAULT_CHECK_TIMEOUT_SEC : Nat := 2

/-- Latency ceiling in milliseconds (`MAX_SERVER_RTT`). -/
def MAX_SERVER_RTT : Nat := DEFAULT_CHECK_TIMEOUT_SEC * 1000

/-- Capacity of the rolling outcome window (`MAX_LATENCY_QUEUE_SIZE`). -/
def MAX_LATENCY_QUEUE_SIZE : Nat := 99

/-- One probe/traffic outcome (`enum Score` in server_stat.rs; the spec calls it
`Outcome`, with `Latency` / `Failed` as the two cases). -/
inductive Score where
  | Latency (lat : Nat)
  | Errored
  deriving DecidableEq, Repr

/-- Rolling statistics of one server (`struct ServerStat`; spec name HealthStat).
`rtt` is the median latency in ms, `fail_rate` the fraction of failed outcomes,
`latency_queue` the rolling window (head = oldest), `latency_stdev` and
`latency_mean` the corrected sample standard deviation and mean of the latency
subset. -/
structure ServerStat where
  rtt : Nat
  fail_rate : ℝ
  latency_queue : List Score
  latency_stdev : ℝ
  latency_mean : ℝ

/-- Fresh statistics (`ServerStat::new`). -/
def ServerStat.new : ServerStat where
  rtt := MAX_SERVER_RTT
  fail_rate := 1.0
  latency_queue := []
  latency_stdev := 0.0
  latency_mean := 0.0

/-- Normalizing constant for the standard deviation (`fn max_latency_stdev`). -/
noncomputable def max_latency_stdev : ℝ :=
  let mrtt : ℝ := (MAX_SERVER_RTT : ℝ)
  let avg : ℝ := (0.0 + mrtt) / 2.0
  let diff1 : ℝ := (0.0 - avg) * (0.0 - avg)
  let diff2 : ℝ := (mrtt - avg) * (mrtt - avg)
  Real.sqrt (diff1 + diff2)

/-- Weight of the normalized latency in the composite score. -/
def SCORE_RTT_WEIGHT : ℝ := 1.0

/-- Weight of the failure rate in the composite score. -/
def SCORE_FAIL_WEIGHT : ℝ := 3.0

/-- Weight of the normalized standard deviation in the composite score. -/
def SCORE_STDEV_WEIGHT : ℝ := 1.0

/-- Composite health score (`ServerStat::score`), scaled by 1000 and truncated
to an integer (the Rust `as u64` cast). -/
noncomputable def ServerStat.score (s : ServerStat) : Nat :=
  let nrtt : ℝ := (s.rtt : ℝ) / (MAX_SERVER_RTT : ℝ)
  let nstdev : ℝ := s.latency_stdev / max_latency_stdev
  let sc : ℝ :=
    (nrtt * SCORE_RTT_WEIGHT + s.fail_rate * SCORE_FAIL_WEIGHT + nstdev * SCORE_STDEV_WEIGHT)
      / (SCORE_RTT_WEIGHT + SCORE_FAIL_WEIGHT + SCORE_STDEV_WEIGHT)
  (Int.floor (sc * 1000.0)).toNat

/-- Latency values of a window, in window order (the `vlat` accumulation loop of
`ServerStat::recalculate_score`). -/
def latencies (q : List Score) : List Nat :=
  q.filterMap fun o =>
    match o with
    | Score.Latency lat => some lat
    | Score.Errored => none

/-- Failed-outcome count of a window (the `cerr` accumulation loop of
`ServerStat::recalculate_score`). -/
def countErrored (q : List Score) : Nat :=
  (q.filter fun o =>
    match o with
    | Score.Latency _ => false
    | Score.Errored => true).length

/-- Window update of `ServerStat::push_score`: append at the back, then drop the
front element if the window now exceeds `MAX_LATENCY_QUEUE_SIZE`. -/
def push_queue (q : List Score) (o : Score) : List Score :=
  let q1 := q ++ [o]
  if q1.length > MAX_LATENCY_QUEUE_SIZE then q1.tail else q1

/-- Statistics recomputation (`ServerStat::recalculate_score`), as the state
transformation it performs; the u64 the Rust method returns is `score` of the
resulting state (in the empty-window branch the state is unchanged and the
score of the unchanged state is returned). -/
noncomputable def ServerStat.recalculate_score (s : ServerStat) : ServerStat :=
  if s.latency_queue.isEmpty then s
  else
    let vlat0 := latencies s.latency_queue
    let cerr := countErrored s.latency_queue
    let s1 := { s with fail_rate := (cerr : ℝ) / (s.latency_queue.length : ℝ) }
    if vlat0.isEmpty then s1
    else
      let vlat := vlat0.insertionSort (· ≤ ·)
      let mid := vlat.length / 2
      let s2 :=
        { s1 with
          rtt :=
            if vlat.length % 2 = 0 then (vlat.getD mid 0 + vlat.getD (mid - 1) 0) / 2
            else vlat.getD mid 0 }
      if vlat.length > 1 then
        let n : ℝ := (vlat.length : ℝ)
        let total_lat : Nat := vlat.sum
        let mean : ℝ := (total_lat : ℝ) / n
        let acc_diff : ℝ := (vlat.map fun x => ((x : ℝ) - mean) * ((x : ℝ) - mean)).sum
        { s2 with
          latency_mean := mean
          latency_stdev := Real.sqrt ((1.0 / (n - 1.0)) * acc_diff) }
      else s2

/-- Outcome push (`ServerStat::push_score`; spec name `push_outcome`), as the
state transformation it performs; the u64 the Rust method returns is `score`
of the resulting state. -/
noncomputable def ServerStat.push_score (s : ServerStat) (o : Score) : ServerStat :=
  ServerStat.recalculate_score { s with latency_queue := push_queue s.latency_queue o }

/-- Pushing a whole sequence of outcomes in order. -/
noncomputable def ServerStat.pushAll (s : ServerStat) (outs : List Score) : ServerStat :=
  outs.foldl ServerStat.push_score s

/-! ### ConnectionEstablisher (auto_proxy_stream.rs)

The async I/O of `ProxyClientStream::connect_with_opts_map` (the tunnel
handshake) and of the direct `TcpStream::connect_remote_with_opts` are external
collaborators; each attempt's result is an `Except` input to the pure dispatch
logic, which is what auto_proxy_stream.rs itself contains.  Type parameters:
`ε` the I/O error type, `π` the proxied (tunneled) stream type, `β` the
bypassed (direct) stream type, `α` the target address type. -/

/-- A candidate endpoint with its health statistics (`ServerIdent`; only the
statistics are relevant to the embedded code paths). -/
structure ServerIdent where
  stat : ServerStat

/-- Modelled from the spec: `ServerIdent::report_failure` lives outside the
three embedded source files; per the spec it reports the failure to the
endpoint's HealthStat via `push_outcome(Failed)`. -/
noncomputable def ServerIdent.report_failure (s : ServerIdent) : ServerIdent :=
  { s with stat := s.stat.push_score Score.Errored }

/-- The two-branch stream (`enum AutoProxyClientStream`). -/
inductive AutoProxyClientStream (π β : Type) where
  | Proxied (s : π)
  | Bypassed (s : β)

/-- Branch query (`AutoProxyClientStream::is_proxied`). -/
def AutoProxyClientStream.is_proxied {π β : Type} : AutoProxyClientStream π β → Bool
  | AutoProxyClientStream.Proxied _ => true
  | AutoProxyClientStream.Bypassed _ => false

/-- Branch query (`AutoProxyClientStream::is_bypassed`). -/
def AutoProxyClientStream.is_bypassed {π β : Type} : AutoProxyClientStream π β → Bool
  | AutoProxyClientStream.Proxied _ => false
  | AutoProxyClientStream.Bypassed _ => true

/-- Access-control list: only its bypass predicate
(`AccessControl::check_target_bypassed`) is visible to the embedded code. -/
structure AccessControl (α : Type) where
  check_target_bypassed : α → Bool

/-- Tunneled connection (`AutoProxyClientStream::connect_with_opts`): `attempt`
is the result of the tunnel handshake to `server`.  On success the stream is
wrapped as `Proxied`; on failure `report_failure` is applied to the server
before the error is returned.  The returned pair is (result handed to the
caller, server state after the call). -/
noncomputable def connect_with_opts {ε π β : Type} (server : ServerIdent)
    (attempt : Except ε π) : Except ε (AutoProxyClientStream π β) × ServerIdent :=
  match attempt with
  | Except.ok s => (Except.ok (AutoProxyClientStream.Proxied s), server)
  | Except.error err => (Except.error err, server.report_failure)

/-- Bypass-or-tunnel connection (`AutoProxyClientStream::connect_with_opts_acl`):
if the ACL says the target is bypassed, connect directly (`direct` is that
attempt's result) and never touch the server's statistics; otherwise defer to
`connect_with_opts`. -/
noncomputable def connect_with_opts_acl {ε π β α : Type} (server : ServerIdent) (addr : α)
    (acl : AccessControl α) (direct : Except ε β) (attempt : Except ε π) :
    Except ε (AutoProxyClientStream π β) × ServerIdent :=
  if acl.check_target_bypassed addr then
    (direct.map AutoProxyClientStream.Bypassed, server)
  else
    connect_with_opts server attempt

/-- Optional-ACL entry point (`AutoProxyClientStream::connect_with_opts_acl_opt`). -/
noncomputable def connect_with_opts_acl_opt {ε π β α : Type} (server : ServerIdent) (addr : α)
    (acl : Option (AccessControl α)) (direct : Except ε β) (attempt : Except ε π) :
    Except ε (AutoProxyClientStream π β) × ServerIdent :=
  match acl with
  | none => connect_with_opts server attempt
  | some a => connect_with_opts_acl server addr a direct attempt

/-! ### FleetManager (manager/server.rs)

`ServerConfig`, `CipherKind`, `Mode`, `PluginConfig` and the request/response
records live in the repository's `shadowsocks` and `config` crates, outside the
three embedded files; they are modelled from the spec below, each with exactly
the shape the embedded code observes.  The cipher-name and mode-string parsers
(`str::parse::<CipherKind>` / `str::parse::<Mode>`) are likewise external and
are passed in as function arguments. -/

/-- Modelled from the spec: a cipher choice, opaque here beyond its name
(`CipherKind` of the shadowsocks crate, outside src/). -/
structure CipherKind where
  name : String
  deriving DecidableEq, Repr

/-- Modelled from the spec: the default cipher
(`CipherKind::CHACHA20_POLY1305`, outside src/). -/
def CipherKind.CHACHA20_POLY1305 : CipherKind := { name := "chacha20-ietf-poly1305" }

/-- Modelled from the spec: an operating mode — TCP-only, UDP-only or both
(`crate::config::Mode`, outside src/). -/
inductive Mode where
  | TcpOnly
  | UdpOnly
  | TcpAndUdp
  deriving DecidableEq, Repr

/-- Modelled from the spec: a plugin invocation description (`PluginConfig` of
the shadowsocks crate, outside src/), with the three fields the embedded code
fills in `Manager::handle_add`. -/
structure PluginConfig where
  plugin : String
  plugin_opts : Option String
  plugin_args : List String
  deriving DecidableEq, Repr

/-- A server address (`ServerAddr` of the shadowsocks crate): a domain name or
an IP socket address, each carrying the port.  The IP itself is opaque. -/
inductive ServerAddr where
  | DomainName (dname : String) (port : Nat)
  | SocketAddr (ip : String) (port : Nat)
  deriving DecidableEq, Repr

/-- Listening port of an address (the `.port()` accessor). -/
def ServerAddr.port : ServerAddr → Nat
  | ServerAddr.DomainName _ p => p
  | ServerAddr.SocketAddr _ p => p

/-- Modelled from the spec: a backend server configuration (`ServerConfig` of
the shadowsocks crate, outside src/), with exactly the fields the embedded
code constructs and reads: address, password, cipher method, optional plugin. -/
structure ServerConfig where
  addr : ServerAddr
  password : String
  method : CipherKind
  plugin : Option PluginConfig
  deriving DecidableEq, Repr

/-- Construction (`ServerConfig::new(addr, password, method)`). -/
def ServerConfig.new (addr : ServerAddr) (password : String) (method : CipherKind) :
    ServerConfig :=
  { addr := addr, password := password, method := method, plugin := none }

/-- Plugin installation (`ServerConfig::set_plugin`). -/
def ServerConfig.set_plugin (cfg : ServerConfig) (p : PluginConfig) : ServerConfig :=
  { cfg with plugin := some p }

/-- A running managed instance (`struct ServerInstance`): the abort handle and
the shared flow statistics are runtime handles; the configuration is the datum
the map operations observe. -/
structure ServerInstance where
  svr_cfg : ServerConfig

/-- The manager's listening host (`crate::config::ManagerServerHost`): a domain
name or an IP, combined with each add request's port to form the new server's
address. -/
inductive ManagerServerHost where
  | Domain (dname : String)
  | Ip (ip : String)
  deriving DecidableEq, Repr

/-- Modelled from the spec: the manager's own configuration
(`crate::config::ManagerConfig`, outside src/), with the two fields
`Manager::handle_add` reads: the server host and the default cipher method. -/
structure ManagerConfig where
  server_host : ManagerServerHost
  method : Option CipherKind

/-- Manager state (`struct Manager`): the instance map keyed by listening port,
plus the configuration fields the embedded handlers read.  The map is the
`servers: Mutex<HashMap<u16, ServerInstance>>` field, modelled as a function
from port to optional instance. -/
structure Manager where
  servers : Nat → Option ServerInstance
  svr_cfg : ManagerConfig
  mode : Mode

/-- An add request (`AddRequest` of the manager protocol). -/
structure AddRequest where
  server_port : Nat
  password : String
  method : Option String
  plugin : Option String
  plugin_opts : Option String
  mode : Option String

/-- A remove request (`RemoveRequest` of the manager protocol). -/
structure RemoveRequest where
  server_port : Nat

/-- Instance start and map insertion (`Manager::add_server`): any instance
already occupying the port is removed (and dropped, aborting its task), the
new server task is spawned, and the new instance is inserted.  The spawned
task itself is runtime behaviour; the map effect is what is embedded. -/
def Manager.add_server (mgr : Manager) (svr_cfg : ServerConfig) (_mode : Option Mode) :
    Manager :=
  let server_port := svr_cfg.addr.port
  { mgr with
    servers := fun k =>
      if k = server_port then some { svr_cfg := svr_cfg } else mgr.servers k }

/-- The `ServerConfig` built by `Manager::handle_add`: `ServerConfig::new` from
the address, password and resolved method, then `set_plugin` when the request
carries a plugin. -/
def Manager.build_svr_cfg (req : AddRequest) (addr : ServerAddr) (method : CipherKind) :
    ServerConfig :=
  let svr_cfg0 := ServerConfig.new addr req.password method
  match req.plugin with
  | some p =>
    svr_cfg0.set_plugin { plugin := p, plugin_opts := req.plugin_opts, plugin_args := [] }
  | none => svr_cfg0

/-- Continuation of `Manager::handle_add` after the cipher method has been
resolved: build the `ServerConfig`, install the plugin, parse the mode
override, then `add_server` and answer "ok". -/
def Manager.handle_add_rest (mgr : Manager) (parseMode : String → Option Mode)
    (req : AddRequest) (addr : ServerAddr) (method : CipherKind) : String × Manager :=
  let svr_cfg := Manager.build_svr_cfg req addr method
  match req.mode with
  | some ms =>
    match parseMode ms with
    | some m => ("ok", mgr.add_server svr_cfg (some m))
    | none => ("unrecognized mode \"" ++ ms ++ "\"", mgr)
  | none => ("ok", mgr.add_server svr_cfg none)

/-- Add-request handling (`Manager::handle_add`).  `parseMethod` and
`parseMode` are the external cipher-name and mode-string parsers; a parse
result of `none` is the `Err(..)` branch of the Rust `parse`.  The returned
string is the `AddResponse` message: the Rust method returns
`Ok(AddResponse(..))` on every path, carrying either an error text or "ok". -/
def Manager.handle_add (mgr : Manager) (parseMethod : String → Option CipherKind)
    (parseMode : String → Option Mode) (req : AddRequest) : String × Manager :=
  let addr : ServerAddr :=
    match mgr.svr_cfg.server_host with
    | ManagerServerHost.Domain dname => ServerAddr.DomainName dname req.server_port
    | ManagerServerHost.Ip ip => ServerAddr.SocketAddr ip req.server_port
  match req.method with
  | some m =>
    match parseMethod m with
    | some method => Manager.handle_add_rest mgr parseMode req addr method
    | none => ("unrecognized method \"" ++ m ++ "\"", mgr)
  | none =>
    Manager.handle_add_rest mgr parseMode req addr
      (mgr.svr_cfg.method.getD CipherKind.CHACHA20_POLY1305)

/-- `Manager::add_server` with the spawned task's outcome made explicit:
`future::abortable` wraps `server.run()`, `tokio::spawn` fires it, and its
eventual result — the only place an OS-level port-bind failure can surface —
is never read by the manager; the new instance is inserted into the map
unconditionally.  `_start_result` is that discarded outcome. -/
def Manager.add_server_spawned (mgr : Manager) (svr_cfg : ServerConfig)
    (mode : Option Mode) (_start_result : Except String Unit) : Manager :=
  mgr.add_server svr_cfg mode

/-- Continuation of `Manager::handle_add` with the spawned instance task's
outcome threaded through to `add_server_spawned`; otherwise identical to
`handle_add_rest`. -/
def Manager.handle_add_rest_spawned (mgr : Manager) (parseMode : String → Option Mode)
    (req : AddRequest) (addr : ServerAddr) (method : CipherKind)
    (start_result : Except String Unit) : String × Manager :=
  let svr_cfg := Manager.build_svr_cfg req addr method
  match req.mode with
  | some ms =>
    match parseMode ms with
    | some m => ("ok", mgr.add_server_spawned svr_cfg (some m) start_result)
    | none => ("unrecognized mode \"" ++ ms ++ "\"", mgr)
  | none => ("ok", mgr.add_server_spawned svr_cfg none start_result)

/-- `Manager::handle_add` with the spawned instance task's outcome made
explicit: no path of the handler inspects or awaits it — the response is
decided, and the instance inserted, before the spawned `server.run()` can
report a failure such as an OS-level port bind error. -/
def Manager.handle_add_spawned (mgr : Manager)
    (parseMethod : String → Option CipherKind) (parseMode : String → Option Mode)
    (req : AddRequest) (start_result : Except String Unit) : String × Manager :=
  let addr : ServerAddr :=
    match mgr.svr_cfg.server_host with
    | ManagerServerHost.Domain dname => ServerAddr.DomainName dname req.server_port
    | ManagerServerHost.Ip ip => ServerAddr.SocketAddr ip req.server_port
  match req.method with
  | some m =>
    match parseMethod m with
    | some method =>
      Manager.handle_add_rest_spawned mgr parseMode req addr method start_result
    | none => ("unrecognized method \"" ++ m ++ "\"", mgr)
  | none =>
    Manager.handle_add_rest_spawned mgr parseMode req addr
      (mgr.svr_cfg.method.getD CipherKind.CHACHA20_POLY1305) start_result

/-- Remove-request handling (`Manager::handle_remove`): evict the instance at
the requested port if present and answer "ok" unconditionally. -/
def Manager.handle_remove (mgr : Manager) (req : RemoveRequest) : String × Manager :=
  ("ok",
    { mgr with
      servers := fun k => if k = req.server_port then none else mgr.servers k })

/-! ### Specification-side definitions

`spec_score` restates the score formula in the spec's own words (normalized
latency over 2000 ms, failure rate weighted 3, normalized standard deviation
over `max_stdev = sqrt((0-1000)^2 + (2000-1000)^2)`, divided by 5, scaled by
1000, truncated toward zero); it exists to be compared with the code-derived
`ServerStat.score`. -/

/-- Spec-side normalizing constant: `sqrt((0-1000)^2 + (2000-1000)^2)`. -/
noncomputable def spec_max_stdev : ℝ :=
  Real.sqrt (((0 : ℝ) - 1000) ^ 2 + ((2000 : ℝ) - 1000) ^ 2)

/-- Spec-side score formula:
`((latency_ms/2000)*1 + failure_rate*3 + (latency_stdev/max_stdev)*1) / 5`,
times 1000, truncated toward zero. -/
noncomputable def spec_score (s : ServerStat) : Nat :=
  (Int.floor
    ((((s.rtt : ℝ) / 2000.0) * 1.0 + s.fail_rate * 3.0 +
        (s.latency_stdev / spec_max_stdev) * 1.0) / 5.0 * 1000.0)).toNat

/-- The HealthStat invariant of the spec: window length at most 99,
failure rate within [0, 1], nonnegative standard deviation. -/
def StatInvariant (s : ServerStat) : Prop :=
  s.latency_queue.length ≤ MAX_LATENCY_QUEUE_SIZE ∧
  0 ≤ s.fail_rate ∧ s.fail_rate ≤ 1 ∧ 0 ≤ s.latency_stdev

/-! ### Helper lemmas -/

theorem recalculate_score_queue (s : ServerStat) :
    s.recalculate_score.latency_queue = s.latency_queue := by
  unfold ServerStat.recalculate_score
  dsimp only
  split_ifs <;> rfl

theorem push_score_queue (s : ServerStat) (o : Score) :
    (s.push_score o).latency_queue = push_queue s.latency_queue o := by
  unfold ServerStat.push_score
  rw [recalculate_score_queue]

theorem push_queue_ne_nil (q : List Score) (o : Score) : push_queue q o ≠ [] := by
  unfold push_queue
  dsimp only
  split_ifs with h
  · intro hc
    have := congrArg List.length hc
    simp [List.length_tail] at this
    simp [this, MAX_LATENCY_QUEUE_SIZE] at h
  · simp

theorem push_queue_length_le (q : List Score) (o : Score)
    (h : q.length ≤ MAX_LATENCY_QUEUE_SIZE) :
    (push_queue q o).length ≤ MAX_LATENCY_QUEUE_SIZE := by
  unfold push_queue
  dsimp only
  split_ifs with hcond
  · simp [List.length_tail]
    omega
  · simp at hcond ⊢
    omega

theorem foldl_push_queue_drop (outs : List Score) :
    ∀ q : List Score, q.length ≤ MAX_LATENCY_QUEUE_SIZE →
      outs.foldl push_queue q =
        (q ++ outs).drop (q.length + outs.length - MAX_LATENCY_QUEUE_SIZE) := by
  induction outs with
  | nil =>
    intro q hq
    simp [Nat.sub_eq_zero_of_le hq]
  | cons o os ih =>
    intro q hq
    rw [List.foldl_cons, ih (push_queue q o) (push_queue_length_le q o hq)]
    by_cases h : q.length + 1 > MAX_LATENCY_QUEUE_SIZE
    · have hq99 : q.length = MAX_LATENCY_QUEUE_SIZE := by omega
      obtain ⟨x, q₂, rfl⟩ : ∃ x q₂, q = x :: q₂ := by
        cases q with
        | nil => simp [MAX_LATENCY_QUEUE_SIZE] at hq99
        | cons x q₂ => exact ⟨x, q₂, rfl⟩
      have hpq : push_queue (x :: q₂) o = q₂ ++ [o] := by
        unfold push_queue
        dsimp only
        rw [if_pos]
        · rfl
        · simp at hq99 ⊢
          omega
      rw [hpq]
      have h2 : q₂.length + 1 = MAX_LATENCY_QUEUE_SIZE := by simpa using hq99
      have e1 : (q₂ ++ [o]).length + os.length - MAX_LATENCY_QUEUE_SIZE = os.length := by
        simp only [List.length_append, List.length_cons, List.length_nil]
        omega
      have e2 : (x :: q₂).length + (o :: os).length - MAX_LATENCY_QUEUE_SIZE
          = os.length + 1 := by
        simp only [List.length_cons]
        omega
      rw [e1, e2, List.cons_append, List.drop_succ_cons, List.append_assoc]
      simp
    · have hpq : push_queue q o = q ++ [o] := by
        unfold push_queue
        dsimp only
        rw [if_neg]
        simp only [List.length_append, List.length_cons, List.length_nil, gt_iff_lt, not_lt]
        omega
      rw [hpq]
      have e3 : (q ++ [o]).length + os.length = q.length + (o :: os).length := by
        simp only [List.length_append, List.length_cons, List.length_nil]
        omega
      rw [e3, List.append_assoc]
      simp

theorem pushAll_queue (outs : List Score) :
    ∀ s : ServerStat, (s.pushAll outs).latency_queue =
      outs.foldl push_queue s.latency_queue := by
  induction outs with
  | nil => intro s; rfl
  | cons o os ih =>
    intro s
    show ((s.push_score o).pushAll os).latency_queue = _
    rw [ih (s.push_score o), push_score_queue, List.foldl_cons]

theorem recalculate_fail_rate (s : ServerStat) (h : s.latency_queue ≠ []) :
    s.recalculate_score.fail_rate =
      (countErrored s.latency_queue : ℝ) / (s.latency_queue.length : ℝ) := by
  unfold ServerStat.recalculate_score
  dsimp only
  rw [if_neg (by simpa using h)]
  split_ifs <;> rfl

theorem recalculate_stdev_cases (s : ServerStat) :
    s.recalculate_score.latency_stdev = s.latency_stdev ∨
      ∃ x : ℝ, s.recalculate_score.latency_stdev = Real.sqrt x := by
  unfold ServerStat.recalculate_score
  dsimp only
  split_ifs <;> first
  | exact Or.inl rfl
  | exact Or.inr ⟨_, rfl⟩

theorem countErrored_le_length (q : List Score) : countErrored q ≤ q.length :=
  List.length_filter_le _ q

theorem push_score_invariant (s : ServerStat) (o : Score) (h : StatInvariant s) :
    StatInvariant (s.push_score o) := by
  obtain ⟨h1, h2, h3, h4⟩ := h
  have hq : (s.push_score o).latency_queue = push_queue s.latency_queue o :=
    push_score_queue s o
  have hne : push_queue s.latency_queue o ≠ [] := push_queue_ne_nil _ _
  have hfr :
      (s.push_score o).fail_rate =
        (countErrored (push_queue s.latency_queue o) : ℝ) /
          ((push_queue s.latency_queue o).length : ℝ) :=
    recalculate_fail_rate { s with latency_queue := push_queue s.latency_queue o } hne
  refine ⟨?_, ?_, ?_, ?_⟩
  · rw [hq]
    exact push_queue_length_le _ _ h1
  · rw [hfr]
    positivity
  · rw [hfr]
    apply div_le_one_of_le₀
    · exact_mod_cast countErrored_le_length _
    · positivity
  · rcases recalculate_stdev_cases
        { s with latency_queue := push_queue s.latency_queue o } with hc | ⟨x, hc⟩
    · show 0 ≤ (s.push_score o).latency_stdev
      rw [show (s.push_score o).latency_stdev =
          ({ s with latency_queue := push_queue s.latency_queue o } :
            ServerStat).recalculate_score.latency_stdev from rfl, hc]
      exact h4
    · rw [show (s.push_score o).latency_stdev =
          ({ s with latency_queue := push_queue s.latency_queue o } :
            ServerStat).recalculate_score.latency_stdev from rfl, hc]
      exact Real.sqrt_nonneg x

theorem stat_invariant_new : StatInvariant ServerStat.new := by
  refine ⟨?_, ?_, ?_, ?_⟩ <;> norm_num [ServerStat.new, MAX_LATENCY_QUEUE_SIZE]

theorem recalculate_frame_no_latency (s : ServerStat)
    (h : latencies s.latency_queue = []) :
    s.recalculate_score.rtt = s.rtt ∧
    s.recalculate_score.latency_mean = s.latency_mean ∧
    s.recalculate_score.latency_stdev = s.latency_stdev := by
  unfold ServerStat.recalculate_score
  dsimp only
  split_ifs <;> simp_all

theorem recalculate_rtt_median (s : ServerStat) (h : latencies s.latency_queue ≠ []) :
    s.recalculate_score.rtt =
      (if ((latencies s.latency_queue).insertionSort (· ≤ ·)).length % 2 = 0 then
        (((latencies s.latency_queue).insertionSort (· ≤ ·)).getD
            (((latencies s.latency_queue).insertionSort (· ≤ ·)).length / 2) 0 +
          ((latencies s.latency_queue).insertionSort (· ≤ ·)).getD
            (((latencies s.latency_queue).insertionSort (· ≤ ·)).length / 2 - 1) 0) / 2
      else
        ((latencies s.latency_queue).insertionSort (· ≤ ·)).getD
          (((latencies s.latency_queue).insertionSort (· ≤ ·)).length / 2) 0) := by
  have hq : s.latency_queue ≠ [] := by
    intro hq
    exact h (by simp [latencies, hq])
  unfold ServerStat.recalculate_score
  dsimp only
  rw [if_neg (by simpa using hq), if_neg (by simpa using h)]
  split_ifs <;> rfl

theorem score_of_default_fields (s : ServerStat) (h1 : s.rtt = 2000)
    (h2 : s.fail_rate = 1) (h3 : s.latency_stdev = 0) : s.score = 800 := by
  unfold ServerStat.score
  rw [h1, h2, h3]
  norm_num [SCORE_RTT_WEIGHT, SCORE_FAIL_WEIGHT, SCORE_STDEV_WEIGHT,
    MAX_SERVER_RTT, DEFAULT_CHECK_TIMEOUT_SEC]
  decide

theorem build_svr_cfg_addr (req : AddRequest) (addr : ServerAddr) (method : CipherKind) :
    (Manager.build_svr_cfg req addr method).addr = addr := by
  unfold Manager.build_svr_cfg
  cases req.plugin <;> rfl

theorem add_server_servers (mgr : Manager) (svr_cfg : ServerConfig) (mode : Option Mode) :
    (mgr.add_server svr_cfg mode).servers =
      fun k => if k = svr_cfg.addr.port then some { svr_cfg := svr_cfg }
        else mgr.servers k := rfl

theorem method_err_ne_ok (m : String) :
    "unrecognized method \"" ++ m ++ "\"" ≠ "ok" := by
  intro h
  have hl := congrArg String.length h
  have h1 : ("unrecognized method \"" : String).length = 21 := rfl
  have h2 : ("\"" : String).length = 1 := rfl
  have h3 : ("ok" : String).length = 2 := rfl
  simp only [String.length_append, h1, h2, h3] at hl
  omega

theorem mode_err_ne_ok (ms : String) :
    "unrecognized mode \"" ++ ms ++ "\"" ≠ "ok" := by
  intro h
  have hl := congrArg String.length h
  have h1 : ("unrecognized mode \"" : String).length = 19 := rfl
  have h2 : ("\"" : String).length = 1 := rfl
  have h3 : ("ok" : String).length = 2 := rfl
  simp only [String.length_append, h1, h2, h3] at hl
  omega

theorem handle_add_rest_spec (mgr : Manager) (parseMode : String → Option Mode)
    (req : AddRequest) (addr : ServerAddr) (method : CipherKind)
    (hport : addr.port = req.server_port) :
    ((Manager.handle_add_rest mgr parseMode req addr method).1 ≠ "ok" →
      (Manager.handle_add_rest mgr parseMode req addr method).2 = mgr) ∧
    ((Manager.handle_add_rest mgr parseMode req addr method).1 = "ok" →
      ∃ inst : ServerInstance,
        (Manager.handle_add_rest mgr parseMode req addr method).2.servers =
          fun k => if k = req.server_port then some inst else mgr.servers k) := by
  unfold Manager.handle_add_rest
  dsimp only
  cases hmo : req.mode with
  | none =>
    refine ⟨fun hne => absurd rfl hne, fun _ => ?_⟩
    refine ⟨{ svr_cfg := Manager.build_svr_cfg req addr method }, ?_⟩
    rw [add_server_servers]
    simp only [build_svr_cfg_addr, hport]
  | some ms =>
    cases hpm : parseMode ms with
    | none =>
      simp only [hpm]
      exact ⟨fun _ => trivial, fun hok => absurd hok (mode_err_ne_ok ms)⟩
    | some m =>
      simp only [hpm]
      refine ⟨fun hne => absurd rfl hne, fun _ => ?_⟩
      refine ⟨{ svr_cfg := Manager.build_svr_cfg req addr method }, ?_⟩
      rw [add_server_servers]
      simp only [build_svr_cfg_addr, hport]

/-! ### The claims -/

/-- C1: for every HealthStat state, `score()` equals the spec formula
`((latency_ms/2000)*1 + failure_rate*3 + (latency_stdev/max_stdev)*1) / 5`,
multiplied by 1000 and truncated toward zero to an integer, where
`max_stdev = sqrt((0-1000)^2 + (2000-1000)^2)`. -/
theorem score_matches_spec_formula (s : ServerStat) : s.score = spec_score s := by
  have hm : max_latency_stdev = spec_max_stdev := by
    unfold max_latency_stdev spec_max_stdev
    norm_num [MAX_SERVER_RTT, DEFAULT_CHECK_TIMEOUT_SEC]
  unfold ServerStat.score spec_score
  rw [hm]
  apply congrArg Int.toNat
  apply congrArg Int.floor
  norm_num [SCORE_RTT_WEIGHT, SCORE_FAIL_WEIGHT, SCORE_STDEV_WEIGHT,
    MAX_SERVER_RTT, DEFAULT_CHECK_TIMEOUT_SEC]

/-- C2: a tunneled connection attempt that fails returns exactly the same
error to the immediate caller, with the failure reported to the endpoint's
HealthStat (`report_failure`, which records a `Failed` outcome via
`push_outcome`); the single-attempt equation also shows no retry is performed
inside this core. -/
theorem connect_failure_reported (ε π β : Type) (server : ServerIdent) (e : ε) :
    @connect_with_opts ε π β server (Except.error e) =
      (Except.error e, server.report_failure) ∧
    server.report_failure.stat = server.stat.push_score Score.Errored :=
  ⟨rfl, rfl⟩

/-- C3: after a push whose window holds a non-empty multiset of latency
values, `latency_ms` is the median of those values sorted ascending: for an
even count the (integer) average of the two central values, for an odd count
the central value. -/
theorem push_outcome_median (s : ServerStat) (o : Score) (l : List Nat)
    (hsort : l.Sorted (· ≤ ·))
    (hperm : l.Perm (latencies (s.push_score o).latency_queue))
    (hne : l ≠ []) :
    (s.push_score o).rtt =
      if l.length % 2 = 0 then
        (l.getD (l.length / 2) 0 + l.getD (l.length / 2 - 1) 0) / 2
      else l.getD (l.length / 2) 0 := by
  rw [push_score_queue s o] at hperm
  have hlat_ne : latencies (push_queue s.latency_queue o) ≠ [] := by
    intro h0
    rw [h0] at hperm
    exact hne hperm.eq_nil
  have hps : s.push_score o =
      ServerStat.recalculate_score
        { s with latency_queue := push_queue s.latency_queue o } := rfl
  have hrtt := recalculate_rtt_median
    { s with latency_queue := push_queue s.latency_queue o } hlat_ne
  have hl : l = (latencies (push_queue s.latency_queue o)).insertionSort (· ≤ ·) := by
    exact List.eq_of_perm_of_sorted (hperm.trans (List.perm_insertionSort _ _).symm)
      hsort (List.sorted_insertionSort _ _)
  rw [hps, hrtt, ← hl]

/-- Witness for C3: pushing `Latency(100)` then `Latency(200)` on a fresh
HealthStat leaves the sorted latency window `[100, 200]` (even count) and a
median `latency_ms` of 150. -/
theorem push_outcome_median_witness :
    List.Perm [100, 200]
      (latencies ((ServerStat.new.push_score (Score.Latency 100)).push_score
        (Score.Latency 200)).latency_queue) ∧
    ((ServerStat.new.push_score (Score.Latency 100)).push_score
        (Score.Latency 200)).rtt = 150 := by
  constructor
  · decide
  · rw [push_outcome_median (ServerStat.new.push_score (Score.Latency 100))
      (Score.Latency 200) [100, 200] (by decide) (by decide) (by decide)]
    rfl

/-- C4: a freshly constructed HealthStat has `latency_ms = 2000`,
`failure_rate = 1.0`, an empty window, `latency_mean = latency_stdev = 0.0`,
and `score() = 800`. -/
theorem fresh_stat_defaults :
    ServerStat.new.rtt = 2000 ∧ ServerStat.new.fail_rate = 1 ∧
    ServerStat.new.latency_queue = [] ∧ ServerStat.new.latency_mean = 0 ∧
    ServerStat.new.latency_stdev = 0 ∧ ServerStat.new.score = 800 :=
  ⟨by decide, by norm_num [ServerStat.new], rfl, by norm_num [ServerStat.new],
    by norm_num [ServerStat.new],
    score_of_default_fields ServerStat.new (by decide)
      (by norm_num [ServerStat.new]) (by norm_num [ServerStat.new])⟩

/-- C5: after pushing a sequence of `n` outcomes into a fresh HealthStat, the
window is exactly the most recent `min(n, 99)` outcomes in push order — the
suffix of the sequence after dropping the `n - 99` oldest (FIFO eviction). -/
theorem window_fifo_capacity (outs : List Score) :
    (ServerStat.new.pushAll outs).latency_queue =
      outs.drop (outs.length - MAX_LATENCY_QUEUE_SIZE) ∧
    (ServerStat.new.pushAll outs).latency_queue.length =
      min outs.length MAX_LATENCY_QUEUE_SIZE := by
  have h := foldl_push_queue_drop outs [] (by simp)
  rw [pushAll_queue outs ServerStat.new]
  have hq : ServerStat.new.latency_queue = [] := rfl
  rw [hq, h]
  simp only [List.nil_append, List.length_nil, Nat.zero_add]
  refine ⟨trivial, ?_⟩
  rw [List.length_drop]
  omega

/-- C6: for every sequence of outcomes pushed into a fresh HealthStat, after
every push the window length is at most 99, the failure rate lies in [0, 1]
and the standard deviation is nonnegative (every prefix of pushes is itself an
instance of the quantified sequence). -/
theorem stat_invariant_after_pushes (outs : List Score) :
    StatInvariant (ServerStat.new.pushAll outs) := by
  have key : ∀ os : List Score, ∀ s : ServerStat,
      StatInvariant s → StatInvariant (s.pushAll os) := by
    intro os
    induction os with
    | nil => intro s h; exact h
    | cons o os2 ih =>
      intro s h
      exact ih (s.push_score o) (push_score_invariant s o h)
  exact key outs ServerStat.new stat_invariant_new

/-- C7: a push after which the window holds no `Latency` value leaves
`latency_ms`, `latency_mean` and `latency_stdev` unchanged; in particular
pushing `Failed` on a fresh HealthStat yields score 800 with the failure rate
recomputed to 1.0 over a window of one. -/
theorem all_failed_window_frame :
    (∀ (s : ServerStat) (o : Score),
      latencies (s.push_score o).latency_queue = [] →
        (s.push_score o).rtt = s.rtt ∧
        (s.push_score o).latency_mean = s.latency_mean ∧
        (s.push_score o).latency_stdev = s.latency_stdev) ∧
    (ServerStat.new.push_score Score.Errored).score = 800 ∧
    (ServerStat.new.push_score Score.Errored).fail_rate = 1 ∧
    (ServerStat.new.push_score Score.Errored).latency_queue.length = 1 := by
  refine ⟨?_, ?_, ?_, ?_⟩
  · intro s o h
    rw [push_score_queue s o] at h
    exact recalculate_frame_no_latency
      { s with latency_queue := push_queue s.latency_queue o } h
  · apply score_of_default_fields
    · decide
    · norm_num [ServerStat.push_score, ServerStat.recalculate_score, push_queue,
        ServerStat.new, MAX_LATENCY_QUEUE_SIZE, latencies, countErrored]
    · norm_num [ServerStat.push_score, ServerStat.recalculate_score, push_queue,
        ServerStat.new, MAX_LATENCY_QUEUE_SIZE, latencies, countErrored]
  · norm_num [ServerStat.push_score, ServerStat.recalculate_score, push_queue,
      ServerStat.new, MAX_LATENCY_QUEUE_SIZE, latencies, countErrored]
  · decide

/-- Witness for C7: pushing `Failed` on a fresh HealthStat produces an
all-`Failed` window, and the three latency statistics indeed keep their
constructed values. -/
theorem all_failed_window_frame_witness :
    latencies (ServerStat.new.push_score Score.Errored).latency_queue = [] ∧
    ((ServerStat.new.push_score Score.Errored).rtt = ServerStat.new.rtt ∧
      (ServerStat.new.push_score Score.Errored).latency_mean =
        ServerStat.new.latency_mean ∧
      (ServerStat.new.push_score Score.Errored).latency_stdev =
        ServerStat.new.latency_stdev) :=
  ⟨by decide, all_failed_window_frame.1 ServerStat.new Score.Errored (by decide)⟩

/-- C8 (amended): handling an Add request whose cipher name or mode string
fails to parse — the only instance-start failures the handler observes —
leaves the manager, and so its instance map, completely unmodified and
returns the error-carrying response message; the map changes only when the
handler answers "ok", and then exactly by inserting the fully built instance
at the requested port.  The original claim's further clause, "any other
instance-start failure", is refuted by
`handle_add_start_failure_counterexample`: such failures surface only in the
already-spawned server task, after insertion and the "ok" answer. -/
theorem handle_add_error_atomic (mgr : Manager)
    (parseMethod : String → Option CipherKind) (parseMode : String → Option Mode)
    (req : AddRequest) :
    ((mgr.handle_add parseMethod parseMode req).1 ≠ "ok" →
      (mgr.handle_add parseMethod parseMode req).2 = mgr) ∧
    ((mgr.handle_add parseMethod parseMode req).1 = "ok" →
      ∃ inst : ServerInstance,
        (mgr.handle_add parseMethod parseMode req).2.servers =
          fun k => if k = req.server_port then some inst else mgr.servers k) := by
  unfold Manager.handle_add
  dsimp only
  have hport : (match mgr.svr_cfg.server_host with
      | ManagerServerHost.Domain dname => ServerAddr.DomainName dname req.server_port
      | ManagerServerHost.Ip ip => ServerAddr.SocketAddr ip req.server_port).port
      = req.server_port := by
    cases mgr.svr_cfg.server_host <;> rfl
  cases hm : req.method with
  | none => exact handle_add_rest_spec mgr parseMode req _ _ hport
  | some m =>
    cases hpm : parseMethod m with
    | none =>
      simp only [hpm]
      exact ⟨fun _ => trivial, fun hok => absurd hok (method_err_ne_ok m)⟩
    | some method =>
      simp only [hpm]
      exact handle_add_rest_spec mgr parseMode req _ _ hport

/-- Witness for C8: an Add request with the unrecognized cipher name
"bad-cipher" produces an error-carrying response and leaves the manager
unchanged. -/
theorem handle_add_error_atomic_witness :
    (({ servers := fun _ => none,
        svr_cfg := { server_host := ManagerServerHost.Ip "127.0.0.1", method := none },
        mode := Mode.TcpOnly } : Manager).handle_add (fun _ => none) (fun _ => none)
      { server_port := 8388, password := "pw", method := some "bad-cipher",
        plugin := none, plugin_opts := none, mode := none }).1 ≠ "ok" ∧
    (({ servers := fun _ => none,
        svr_cfg := { server_host := ManagerServerHost.Ip "127.0.0.1", method := none },
        mode := Mode.TcpOnly } : Manager).handle_add (fun _ => none) (fun _ => none)
      { server_port := 8388, password := "pw", method := some "bad-cipher",
        plugin := none, plugin_opts := none, mode := none }).2 =
      { servers := fun _ => none,
          svr_cfg := { server_host := ManagerServerHost.Ip "127.0.0.1", method := none },
          mode := Mode.TcpOnly } :=
  ⟨by decide, (handle_add_error_atomic _ _ _ _).1 (by decide)⟩

/-- Counterexample for C8 as stated: an Add request whose spawned instance
start fails (the OS reports the port in use) is nevertheless answered "ok" —
not an error-carrying response — and the instance map is nevertheless
mutated, gaining the instance at the requested port: `handle_add` decides
its response and `add_server` inserts before the spawned `server.run()`
result, the only carrier of the bind failure, is ever observed. -/
theorem handle_add_start_failure_counterexample :
    (({ servers := fun _ => none,
        svr_cfg := { server_host := ManagerServerHost.Ip "127.0.0.1", method := none },
        mode := Mode.TcpOnly } : Manager).handle_add_spawned (fun _ => none) (fun _ => none)
      { server_port := 8388, password := "pw", method := none,
        plugin := none, plugin_opts := none, mode := none }
      (Except.error "port in use")).1 = "ok" ∧
    (({ servers := fun _ => none,
        svr_cfg := { server_host := ManagerServerHost.Ip "127.0.0.1", method := none },
        mode := Mode.TcpOnly } : Manager).handle_add_spawned (fun _ => none) (fun _ => none)
      { server_port := 8388, password := "pw", method := none,
        plugin := none, plugin_opts := none, mode := none }
      (Except.error "port in use")).2.servers 8388 =
      some { svr_cfg :=
              { addr := ServerAddr.SocketAddr "127.0.0.1" 8388,
                password := "pw",
                method := CipherKind.CHACHA20_POLY1305,
                plugin := none } } :=
  ⟨rfl, rfl⟩

/-- C9: handling a Remove request always returns the success response "ok",
and when no instance occupies the requested port the instance map is left
unchanged. -/
theorem handle_remove_idempotent (mgr : Manager) (req : RemoveRequest) :
    (mgr.handle_remove req).1 = "ok" ∧
    (mgr.servers req.server_port = none →
      (mgr.handle_remove req).2.servers = mgr.servers) := by
  refine ⟨rfl, fun h => funext fun k => ?_⟩
  show (if k = req.server_port then none else mgr.servers k) = mgr.servers k
  by_cases hk : k = req.server_port
  · rw [if_pos hk, hk, h]
  · rw [if_neg hk]

/-- Witness for C9: removing port 8388 from a manager with an empty instance
map answers "ok" and leaves the map unchanged. -/
theorem handle_remove_idempotent_witness :
    (({ servers := fun _ => none,
        svr_cfg := { server_host := ManagerServerHost.Ip "127.0.0.1", method := none },
        mode := Mode.TcpOnly } : Manager).servers 8388 = none) ∧
    (({ servers := fun _ => none,
        svr_cfg := { server_host := ManagerServerHost.Ip "127.0.0.1", method := none },
        mode := Mode.TcpOnly } : Manager).handle_remove
          { server_port := 8388 }).2.servers =
      ({ servers := fun _ => none,
          svr_cfg := { server_host := ManagerServerHost.Ip "127.0.0.1", method := none },
          mode := Mode.TcpOnly } : Manager).servers :=
  ⟨rfl, (handle_remove_idempotent _ _).2 rfl⟩

/-- C10: with no ACL supplied, `connect_with_opts_acl_opt` is exactly
`connect_with_opts` — the bypass path is never taken: every successful
connection is the tunneled `Proxied` branch (for which `is_proxied` holds)
and every failed attempt reports the failure to the endpoint's HealthStat. -/
theorem acl_none_always_proxied (ε π β α : Type) (server : ServerIdent) (addr : α)
    (direct : Except ε β) (attempt : Except ε π) :
    @connect_with_opts_acl_opt ε π β α server addr none direct attempt =
      @connect_with_opts ε π β server attempt ∧
    (∀ p : π,
      (@connect_with_opts_acl_opt ε π β α server addr none direct (Except.ok p)).1 =
        Except.ok (AutoProxyClientStream.Proxied p)) ∧
    (∀ p : π,
      (AutoProxyClientStream.Proxied p : AutoProxyClientStream π β).is_proxied = true) ∧
    (∀ e : ε,
      @connect_with_opts_acl_opt ε π β α server addr none direct (Except.error e) =
        (Except.error e, server.report_failure)) :=
  ⟨rfl, fun _ => rfl, fun _ => rfl, fun _ => rfl⟩
